import Mathlib

/-!
Shallow embedding of `what-note` (src/src/main.rs), an ear-training quiz:
note naming, guess-grammar matching, guess classification, the per-trial
and per-session tally loops, the scoring formula and the letter-grade table.

Machine integers (`u32` in the source) are embedded as `Nat`; every `u32`
operation that can overflow, underflow or divide by zero is embedded as an
`Option`-valued checked operation, `none` standing for the Rust panic.
-/

namespace WhatNote

/-- Modulus of `u32` arithmetic. -/
def U32LIMIT : Nat := 4294967296

/-- A natural pitch-class letter with a sharp sign appended. -/
def sharpened (s : String) : String := s ++ "#"

/-- `const NOTE_NAMES` (main.rs line 10): the twelve pitch-class symbols
C, C-sharp, D, D-sharp, E, F, F-sharp, G, G-sharp, A, A-sharp, B, in this
order; `sharpened l` spells out the sharp entries of the source list. -/
def NOTE_NAMES : List String :=
  ["C", sharpened "C", "D", sharpened "D", "E",
   "F", sharpened "F", "G", sharpened "G",
   "A", sharpened "A", "B"]

/-- `const NOTES_PER_OCTAVE` (line 12). -/
def NOTES_PER_OCTAVE : Nat := 12

/-- `const MIDDLE_C` (line 13). -/
def MIDDLE_C : Nat := 60

/-- Checked `u32` addition: `none` models the overflow panic. -/
def checkedAdd (a b : Nat) : Option Nat :=
  if a + b < U32LIMIT then some (a + b) else none

/-- Checked `u32` multiplication: `none` models the overflow panic. -/
def checkedMul (a b : Nat) : Option Nat :=
  if a * b < U32LIMIT then some (a * b) else none

/-- Checked `u32` division: `none` models the division-by-zero panic. -/
def checkedDiv (a b : Nat) : Option Nat :=
  if b = 0 then none else some (a / b)

/-- `fn full_note_name` (lines 38-42): `let octave = note / NOTES_PER_OCTAVE - 1`
is a `u32` subtraction, which underflows (panics) when `note / 12 = 0`;
that error branch is `none`.  Otherwise the pitch-class symbol at index
`note % 12` is concatenated with the octave number. -/
def full_note_name (note : Nat) : Option String :=
  if note / NOTES_PER_OCTAVE = 0 then none
  else some (NOTE_NAMES.getD (note % NOTES_PER_OCTAVE) "" ++
             toString (note / NOTES_PER_OCTAVE - 1))

/-- `fn note_name` (lines 44-47): the pitch-class symbol only. -/
def note_name (note : Nat) : String :=
  NOTE_NAMES.getD (note % NOTES_PER_OCTAVE) ""

/-- `enum Guess` (line 36). -/
inductive Guess
  | wrong
  | wrongOctave
  | perfect
deriving DecidableEq

/-- Octave digit of the guess grammar: the character class `[2-6]`. -/
def isOctaveDigit (c : Char) : Bool := decide ('2' ≤ c) && decide (c ≤ '6')

/-- The character class `[ACDFG]` (letters that may take a sharp). -/
def isSharpableLetter (c : Char) : Bool :=
  c = 'A' || c = 'C' || c = 'D' || c = 'F' || c = 'G'

/-- The character class `[BE]` (letters that may not take a sharp). -/
def isPlainLetter (c : Char) : Bool := c = 'B' || c = 'E'

/-- `VALID_NOTE_PATTERN` (lines 58-60), the anchored regular expression
`([ACDFG]#?|[BE])?[2-6]` written out by cases on the length of the string:
an optional pitch-class group (a sharpable letter optionally followed by `#`,
or a plain letter) followed by exactly one octave digit. -/
def matchesNotePattern (s : String) : Bool :=
  match s.toList with
  | [d] => isOctaveDigit d
  | [c, d] => (isSharpableLetter c || isPlainLetter c) && isOctaveDigit d
  | [c, h, d] => isSharpableLetter c && h = '#' && isOctaveDigit d
  | _ => false

/-- The classification at lines 75-83 of `guess_note`, applied after the
grammar matched: exact equality with the full name is `Perfect`, equality of
the input minus its final (single-byte digit) character with the pitch-class
name is `WrongOctave`, anything else is `Wrong`. -/
def classifyGuess (buf nm full : String) : Guess :=
  if buf = full then Guess.perfect
  else if buf.dropRight 1 = nm then Guess.wrongOctave
  else Guess.wrong

/-- `while buf.ends_with("\x0a") { buf.pop(); }` (line 73): remove every
trailing newline character. -/
def stripNewlines (s : String) : String :=
  String.mk ((s.toList.reverse.dropWhile (fun c => c == '\x0a')).reverse)

/-- One event on the standard-input stream: a successfully read line
(`read_line` returns `Ok` with the raw text, newline included), or an I/O
error (`read_line` returns `Err`).  An exhausted stream is end-of-input:
in Rust, `read_line` then returns `Ok(0)` and leaves the buffer empty. -/
inductive InEvent
  | line (raw : String)
  | ioError
deriving DecidableEq

/-- `stdin.read_line` (line 69): `none` is the `Err` case; end-of-input is
NOT an error but a successful read of nothing, and the stream stays empty. -/
def readLine : List InEvent → Option (String × List InEvent)
  | [] => some ("", [])
  | InEvent.line raw :: rest => some (raw, rest)
  | InEvent.ioError :: _ => none

/-- Observable output actions of one `guess_note` loop iteration:
the `"Your guess?"` prompt (line 67), the `play_note` replay on `"?"`
(line 86), and the usage hint on unparseable input (lines 89-90). -/
inductive Action
  | prompt
  | replay
  | hint
deriving DecidableEq

/-- Result of `fn guess_note`: `exited0` is `std::process::exit(0)` on a read
error (line 71); `guessed` returns the classification together with the input
not yet consumed. -/
inductive GuessResult
  | exited0
  | guessed (g : Guess) (rest : List InEvent)
deriving DecidableEq

/-- `fn guess_note` (lines 62-93) as a fuel-indexed loop over the input
stream: prompt, read a line (exiting 0 on `Err`), strip trailing newlines;
a grammar match classifies and returns, `"?"` replays the note and loops,
anything else prints the hint and loops.  Running out of fuel (`none`)
means the loop has not terminated within `fuel` iterations. -/
def guess_note (nm full : String) : Nat → List InEvent → List Action × Option GuessResult
  | 0, _ => ([], none)
  | fuel + 1, events =>
    match readLine events with
    | none => ([Action.prompt], some GuessResult.exited0)
    | some (raw, rest) =>
      let buf := stripNewlines raw
      if matchesNotePattern buf then
        ([Action.prompt], some (GuessResult.guessed (classifyGuess buf nm full) rest))
      else if buf = "?" then
        let r := guess_note nm full fuel rest
        (Action.prompt :: Action.replay :: r.1, r.2)
      else
        let r := guess_note nm full fuel rest
        (Action.prompt :: Action.hint :: r.1, r.2)

/-- `invocation.octaves.min(5).max(1)` (line 97). -/
def clampOctaves (o : Nat) : Nat := max (min o 5) 1

/-- `let octaves_below = octaves/2` (line 98). -/
def octavesBelow (o : Nat) : Nat := clampOctaves o / 2

/-- `let octaves_above = (octaves+1)/2` (line 99). -/
def octavesAbove (o : Nat) : Nat := (clampOctaves o + 1) / 2

/-- `let min_note = MIDDLE_C - octaves_below * NOTES_PER_OCTAVE` (line 100);
the `u32` subtraction never underflows because `octaves_below ≤ 2`. -/
def minNote (o : Nat) : Nat := MIDDLE_C - octavesBelow o * NOTES_PER_OCTAVE

/-- `let max_note = MIDDLE_C + octaves_above * NOTES_PER_OCTAVE` (line 101). -/
def maxNote (o : Nat) : Nat := MIDDLE_C + octavesAbove o * NOTES_PER_OCTAVE

/-- Tally effect of one trial (lines 113-139) on the two counters, given the
list of outcomes of the successive `guess_note` calls of that trial (one
entry per attempt, at most `attempt_limit` of them): `Wrong` continues,
`WrongOctave` adds 1 to `right_count` and breaks, `Perfect` adds 1 to
`perfect_count` and breaks; exhausting the list adds nothing.
The pair is `(perfect_count increment, right_count increment)`. -/
def trialTally : List Guess → Nat × Nat
  | [] => (0, 0)
  | Guess.wrong :: rest => trialTally rest
  | Guess.wrongOctave :: _ => (0, 1)
  | Guess.perfect :: _ => (1, 0)

/-- The trial loop `for rem_guesses in (0 .. invocation.attempt_limit).rev()`
(line 113): the i-th `guess_note` call of the trial returns `g i`, and at
most `limit` attempts are made. -/
def runTrial (limit : Nat) (g : Nat → Guess) : Nat × Nat :=
  trialTally ((List.range limit).map g)

/-- The session loop `for _ in 0 .. invocation.test_count` (line 107):
`g k i` is the outcome of the i-th attempt of trial `k`; both counters start
at 0 (lines 104-105) and accumulate the per-trial increments. -/
def runSession : Nat → Nat → (Nat → Nat → Guess) → Nat × Nat
  | 0, _, _ => (0, 0)
  | k + 1, limit, g =>
    let acc := runSession k limit g
    let t := runTrial limit (g k)
    (acc.1 + t.1, acc.2 + t.2)

/-- `let score = ((perfect_count * 2 + right_count) * 100 / invocation.test_count + 1) / 2`
(line 143), every `u32` operation checked: overflow or division by zero
(`test_count = 0`) is `none`. -/
def score (perfect_count right_count test_count : Nat) : Option Nat := do
  let a ← checkedMul perfect_count 2
  let b ← checkedAdd a right_count
  let c ← checkedMul b 100
  let d ← checkedDiv c test_count
  let e ← checkedAdd d 1
  checkedDiv e 2

/-- The letter-grade `match` (lines 145-160): a cascade of `x if x >= k`
guards, tried from the top. -/
def grade (s : Nat) : String :=
  if 100 ≤ s then "S"
  else if 97 ≤ s then "A+"
  else if 94 ≤ s then "A"
  else if 90 ≤ s then "A-"
  else if 87 ≤ s then "B+"
  else if 84 ≤ s then "B"
  else if 80 ≤ s then "B-"
  else if 77 ≤ s then "C+"
  else if 74 ≤ s then "C"
  else if 70 ≤ s then "C-"
  else if 67 ≤ s then "D+"
  else if 64 ≤ s then "D"
  else if 60 ≤ s then "D-"
  else "F"

/-- Modelled from the spec: the descending threshold table
`100→S, 97→A+, 94→A, 90→A-, 87→B+, 84→B, 80→B-, 77→C+, 74→C, 70→C-, 67→D+,
64→D, 60→D-, else F`. -/
def gradeTable : List (Nat × String) :=
  [(100, "S"), (97, "A+"), (94, "A"), (90, "A-"), (87, "B+"), (84, "B"),
   (80, "B-"), (77, "C+"), (74, "C"), (70, "C-"), (67, "D+"), (64, "D"),
   (60, "D-")]

/-- Modelled from the spec: the grade of the highest threshold not exceeding
`s` in the descending table, `"F"` when every threshold exceeds `s`. -/
def gradeSpec (s : Nat) : String :=
  ((gradeTable.find? (fun p => decide (p.1 ≤ s))).map Prod.snd).getD "F"

/-! ## Helper lemmas -/

/-- Unfolding `guess_note` at end-of-input: the empty buffer matches neither
the grammar nor `"?"`, so the loop prints the hint and iterates on the still
empty stream. -/
theorem guess_note_succ_nil (nm full : String) (k : Nat) :
    guess_note nm full (k + 1) [] =
      (Action.prompt :: Action.hint :: (guess_note nm full k []).1,
       (guess_note nm full k []).2) := rfl

/-- Each trial contributes `(0,0)`, `(1,0)` or `(0,1)` to the counters. -/
theorem trialTally_cases (gs : List Guess) :
    trialTally gs = (0, 0) ∨ trialTally gs = (1, 0) ∨ trialTally gs = (0, 1) := by
  induction gs with
  | nil => exact Or.inl rfl
  | cons g rest ih =>
    cases g with
    | wrong => simpa [trialTally] using ih
    | wrongOctave => exact Or.inr (Or.inr rfl)
    | perfect => exact Or.inr (Or.inl rfl)

/-- With `test_count = 0` the scoring expression always hits an error branch:
whichever earlier check fires, the division by `test_count` is reached with a
zero divisor whenever the products stayed in range. -/
theorem score_eq_none_of_tzero (p r : Nat) : score p r 0 = none := by
  unfold score checkedMul checkedAdd checkedDiv
  split_ifs <;> simp_all

/-! ## Claims -/

/-- Claim C1 (code bug): the spec says end-of-input terminates the whole
program with exit code 0, but `read_line` reports end-of-input as `Ok(0)`
with an empty buffer, not as `Err`; only a genuine read error reaches the
`std::process::exit(0)` arm.  At end-of-input the loop therefore never
produces any result (it re-prompts forever), while an I/O error does exit 0
immediately. -/
theorem C1_eof_loops_forever :
    (∀ nm full fuel, (guess_note nm full fuel []).2 = none) ∧
    (∀ nm full fuel rest,
      guess_note nm full (fuel + 1) (InEvent.ioError :: rest) =
        ([Action.prompt], some GuessResult.exited0)) := by
  constructor
  · intro nm full fuel
    induction fuel with
    | zero => rfl
    | succ k ih => rw [guess_note_succ_nil]; exact ih
  · intro nm full fuel rest
    rfl

/-- Claim C8: the grammar accepts `"C#4"` and rejects `"B#4"`, `"H4"`, `"C"`
and `"C7"`; `"?"` never matches the grammar and a `"?"` line always takes the
replay branch: the note is replayed and the loop continues on the remaining
input without returning a classification (no attempt is consumed). -/
theorem C8_grammar_and_replay :
    matchesNotePattern "C#4" = true ∧
    matchesNotePattern "B#4" = false ∧
    matchesNotePattern "H4" = false ∧
    matchesNotePattern "C" = false ∧
    matchesNotePattern "C7" = false ∧
    matchesNotePattern "?" = false ∧
    (∀ nm full fuel rest,
      guess_note nm full (fuel + 1) (InEvent.line "?\x0a" :: rest) =
        (Action.prompt :: Action.replay :: (guess_note nm full fuel rest).1,
         (guess_note nm full fuel rest).2)) := by
  refine ⟨by decide, by decide, by decide, by decide, by decide, by decide, ?_⟩
  intro nm full fuel rest
  rfl

/-- Claim C2 (corrected): a line matching the grammar is classified exactly
as the spec describes — `Perfect` on equality with the full name,
`WrongOctave` when the line minus its trailing digit equals the pitch-class
name, `Wrong` otherwise.  The claim's concrete instance is wrong, however:
note 61 has full name `"C#4"` (61/12 − 1 = 4), not `"C#3"`, so the amended
instances are `"C#4"` → Perfect, `"C#5"` → WrongOctave, `"D3"` → Wrong. -/
theorem C2_classification :
    (∀ nm full line rest fuel,
      matchesNotePattern (stripNewlines line) = true →
      guess_note nm full (fuel + 1) (InEvent.line line :: rest) =
        ([Action.prompt], some (GuessResult.guessed
          (if stripNewlines line = full then Guess.perfect
           else if (stripNewlines line).dropRight 1 = nm then Guess.wrongOctave
           else Guess.wrong) rest))) ∧
    note_name 61 = "C#" ∧
    full_note_name 61 = some "C#4" ∧
    classifyGuess "C#4" "C#" "C#4" = Guess.perfect ∧
    classifyGuess "C#5" "C#" "C#4" = Guess.wrongOctave ∧
    classifyGuess "D3" "C#" "C#4" = Guess.wrong := by
  refine ⟨?_, by decide, by decide, by decide, by decide, by decide⟩
  intro nm full line rest fuel h
  simp [guess_note, readLine, h, classifyGuess]

/-- Claim C2 witness: the general classification rule applied to the matching
line `"C#4\x0a"` against target names `"C#"`/`"C#4"`. -/
theorem C2_witness :
    matchesNotePattern (stripNewlines "C#4\x0a") = true ∧
    guess_note "C#" "C#4" 1 (InEvent.line "C#4\x0a" :: []) =
      ([Action.prompt], some (GuessResult.guessed
        (if stripNewlines "C#4\x0a" = "C#4" then Guess.perfect
         else if (stripNewlines "C#4\x0a").dropRight 1 = "C#" then Guess.wrongOctave
         else Guess.wrong) [])) :=
  ⟨by decide, C2_classification.1 "C#" "C#4" "C#4\x0a" [] 0 (by decide)⟩

/-- Claim C2 counterexample: note 61's full name is `"C#4"`, not `"C#3"` as
the claim asserts, and the guess `"C#3"` against target 61 is classified
`WrongOctave`, not `Perfect`. -/
theorem C2_counterexample :
    full_note_name 61 = some "C#4" ∧
    full_note_name 61 ≠ some "C#3" ∧
    (guess_note (note_name 61) "C#4" 1 [InEvent.line "C#3\x0a"]).2 =
      some (GuessResult.guessed Guess.wrongOctave []) ∧
    Guess.wrongOctave ≠ Guess.perfect := by
  decide

/-- Claim C3 (corrected): when no `u32` step overflows, the score is exactly
`((perfect*2 + right) * 100 / test_count + 1) / 2` with truncating division
at each step, and the trailing `+1`-then-halve rounds a tie of one half
upward: `(x+1)/2 = x/2 + x%2`.  The claim's unrestricted quantification
fails, because the `u32` multiplications can overflow (see the
counterexample), so the no-overflow bound `(p*2 + r)*100 < 2^32` is added. -/
theorem C3_score_formula (p r t : Nat) (ht : 1 ≤ t)
    (hof : (p * 2 + r) * 100 < U32LIMIT) :
    score p r t = some (((p * 2 + r) * 100 / t + 1) / 2) ∧
    (∀ x : Nat, (x + 1) / 2 = x / 2 + x % 2) := by
  constructor
  · have h1 : p * 2 < U32LIMIT := by
      have : p * 2 ≤ (p * 2 + r) * 100 := by nlinarith
      omega
    have h2 : p * 2 + r < U32LIMIT := by
      have : p * 2 + r ≤ (p * 2 + r) * 100 := by nlinarith
      omega
    have hq : (p * 2 + r) * 100 / t ≤ (p * 2 + r) * 100 := Nat.div_le_self _ _
    have h3 : (p * 2 + r) * 100 / t < U32LIMIT := by omega
    have h4 : (p * 2 + r) * 100 / t + 1 < U32LIMIT := by
      rcases Nat.lt_or_ge ((p * 2 + r) * 100 / t) (U32LIMIT - 1) with hlt | hge
      · omega
      · exfalso
        have hc : (p * 2 + r) * 100 = U32LIMIT - 1 := by omega
        unfold U32LIMIT at hc
        omega
    have ht0 : ¬ t = 0 := by omega
    simp [score, checkedMul, checkedAdd, checkedDiv, h1, h2, h3, h4, hof, ht0]
  · intro x
    omega

/-- Claim C3 witness: the formula at `perfect_count = 8`, `right_count = 2`,
`test_count = 10`. -/
theorem C3_witness :
    1 ≤ 10 ∧ (8 * 2 + 2) * 100 < U32LIMIT ∧
    (score 8 2 10 = some (((8 * 2 + 2) * 100 / 10 + 1) / 2) ∧
     (∀ x : Nat, (x + 1) / 2 = x / 2 + x % 2)) :=
  ⟨by decide, by decide, C3_score_formula 8 2 10 (by decide) (by decide)⟩

/-- Claim C3 counterexample: at `perfect_count = 2^31`, `right_count = 0`,
`test_count = 1` the first multiplication overflows `u32` (`2^31 * 2 = 2^32`),
so the code panics instead of producing the value of the pure formula. -/
theorem C3_counterexample :
    score 2147483648 0 1 = none ∧
    score 2147483648 0 1 ≠ some (((2147483648 * 2 + 0) * 100 / 1 + 1) / 2) := by
  decide

/-- Claim C4: the guard cascade of the source agrees with the spec's
descending threshold table on every score (the grade is that of the highest
threshold not exceeding the score, `"F"` below every threshold); and the
session `test_count = 10`, `perfect_count = 8`, `right_count = 2` scores
exactly 90, whose grade is the table's `"A-"`. -/
theorem C4_grade_table :
    (∀ s, grade s = gradeSpec s) ∧
    score 8 2 10 = some 90 ∧
    grade 90 = "A-" ∧
    gradeSpec 90 = "A-" := by
  refine ⟨?_, by decide, by decide, by decide⟩
  intro s
  by_cases h : s ≤ 100
  · interval_cases s <;> decide
  · have h1 : 100 ≤ s := by omega
    simp [grade, gradeSpec, gradeTable, List.find?, h1]

/-- Claim C5: the effective octave count is the argument clamped to `[1, 5]`
(source line 97), the playable bounds are `60 − 12*(octaves/2)` and
`60 + 12*((octaves+1)/2)` — stated additively, which also shows the `u32`
subtraction never underflows — octaves = 1 gives `[60, 72]`, octaves = 2
gives `[48, 72]`, and for every argument both bounds are multiple-of-12
offsets from 60 with `min_note ≤ max_note`. -/
theorem C5_range_derivation (o : Nat) :
    clampOctaves o = max (min o 5) 1 ∧
    1 ≤ clampOctaves o ∧ clampOctaves o ≤ 5 ∧
    minNote o + octavesBelow o * NOTES_PER_OCTAVE = MIDDLE_C ∧
    maxNote o = MIDDLE_C + octavesAbove o * NOTES_PER_OCTAVE ∧
    minNote 1 = 60 ∧ maxNote 1 = 72 ∧
    minNote 2 = 48 ∧ maxNote 2 = 72 ∧
    (∃ a b, minNote o + 12 * a = 60 ∧ maxNote o = 60 + 12 * b) ∧
    minNote o ≤ maxNote o := by
  refine ⟨rfl, ?_, ?_, ?_, rfl, by decide, by decide, by decide, by decide,
    ⟨octavesBelow o, octavesAbove o, ?_, ?_⟩, ?_⟩ <;>
    simp only [minNote, maxNote, octavesBelow, octavesAbove, clampOctaves,
      MIDDLE_C, NOTES_PER_OCTAVE] <;>
    omega

/-- Claim C6 (corrected): for octaves = 5 the derived range is
`min_note = 36` and `max_note = 96`, with `octaves_below = 2` and
`octaves_above = 3`: indeed `60 − 12*2 = 36` and `60 + 12*3 = 96`, not the
0 and 84 the claim states. -/
theorem C6_octaves_five :
    octavesBelow 5 = 2 ∧ octavesAbove 5 = 3 ∧
    minNote 5 = 36 ∧ maxNote 5 = 96 := by
  decide

/-- Claim C6 counterexample: the claimed bounds 0 and 84 are not the ones the
code derives for octaves = 5. -/
theorem C6_counterexample : minNote 5 ≠ 0 ∧ maxNote 5 ≠ 84 := by
  decide

/-- Claim C7 (corrected): for every note `n ≥ 12`, `full_note_name n` is the
pitch-class symbol at index `n % 12` of the 12-entry table concatenated with
the octave number `n / 12 − 1`, and `note_name n` is exactly the pitch-class
prefix (stripping the trailing octave number).  The claim's quantification
over every note fails: for `n < 12` the `u32` expression `n / 12 - 1`
underflows (a panic), see the counterexample.  Both functions are plain
functions of `n`, hence deterministic. -/
theorem C7_full_note_name (n : Nat) (h : NOTES_PER_OCTAVE ≤ n) :
    full_note_name n = some (note_name n ++ toString (n / NOTES_PER_OCTAVE - 1)) ∧
    note_name n = NOTE_NAMES.getD (n % NOTES_PER_OCTAVE) "" := by
  have h0 : ¬ n / NOTES_PER_OCTAVE = 0 := by
    unfold NOTES_PER_OCTAVE at *
    omega
  exact ⟨by simp [full_note_name, note_name, h0], rfl⟩

/-- Claim C7 witness: the naming decomposition at note 61. -/
theorem C7_witness :
    NOTES_PER_OCTAVE ≤ 61 ∧
    (full_note_name 61 = some (note_name 61 ++ toString (61 / NOTES_PER_OCTAVE - 1)) ∧
     note_name 61 = NOTE_NAMES.getD (61 % NOTES_PER_OCTAVE) "") :=
  ⟨by decide, C7_full_note_name 61 (by decide)⟩

/-- Claim C7 counterexample: at note 0 the octave computation `0/12 − 1`
underflows `u32`, so `full_note_name` has no value at all — it does not
consist of pitch class `"C"` and octave `0/12 − 1` as the unrestricted claim
would require. -/
theorem C7_counterexample : full_note_name 0 = none := by
  decide

/-- Claim C9: every trial increments at most one tally, by exactly 1 —
its contribution is `(0,0)` (attempts exhausted on Wrong guesses),
`(1,0)` (Perfect ends the trial) or `(0,1)` (WrongOctave ends the trial) —
so after any session of `test_count` trials,
`perfect_count + right_count ≤ test_count`. -/
theorem C9_tally_invariant :
    (∀ limit g, runTrial limit g = (0, 0) ∨ runTrial limit g = (1, 0) ∨
      runTrial limit g = (0, 1)) ∧
    (∀ limit g, (runTrial limit g).1 + (runTrial limit g).2 ≤ 1) ∧
    (∀ test_count limit g,
      (runSession test_count limit g).1 + (runSession test_count limit g).2 ≤
        test_count) := by
  refine ⟨fun limit g => trialTally_cases _, ?_, ?_⟩
  · intro limit g
    rcases trialTally_cases ((List.range limit).map g) with h | h | h <;>
      simp [runTrial, h]
  · intro test_count limit g
    induction test_count with
    | zero => simp [runSession]
    | succ k ih =>
      have h := trialTally_cases ((List.range limit).map (g k))
      simp only [runSession, runTrial] at *
      rcases h with h | h | h <;> rw [h] <;> simp <;> omega

/-- Claim C10: the scoring expression has no guard on the divisor, so at the
accepted flag value `test_count = 0` it takes the division-by-zero error
branch for every tally; conversely a defined score forces
`test_count ≥ 1`. -/
theorem C10_division_by_zero :
    (∀ p r, score p r 0 = none) ∧
    (∀ p r t, (score p r t).isSome = true → 1 ≤ t) := by
  refine ⟨fun p r => score_eq_none_of_tzero p r, ?_⟩
  intro p r t h
  rcases Nat.eq_zero_or_pos t with rfl | ht
  · rw [score_eq_none_of_tzero] at h
    simp at h
  · exact ht

/-- Claim C10 witness: the error branch at `test_count = 0` for the session
tallies `8`/`2`, and the converse applied to the defined score of the
`8`/`2`/`10` session. -/
theorem C10_witness : score 8 2 0 = none ∧ 1 ≤ 10 :=
  ⟨C10_division_by_zero.1 8 2, C10_division_by_zero.2 8 2 10 (by decide)⟩

end WhatNote
